import Mathlib

/-!
Verification of the coral-ontogeny dashboard data core.

Shallow embedding of the data-transform, statistics and store modules:

- src/utils/dataTransform.ts : parseMeasurement, parseObservation, enrichCoral
- src/hooks/useCoralDataJSON.ts : the JSON loader derived-field pass
- src/utils/statistics.ts : kaplanMeier, computeSizeBins
- src/store/useStore.ts and src/components/FilterPanel.tsx : filter state and
  the reset action

JavaScript numbers are modelled with exact arithmetic: rationals where the
source only adds, multiplies and divides, reals where it takes sqrt and log.
Absent values (null or undefined) are Option.none; the JavaScript truthiness
tests that the source applies to numbers treat 0 as false.
-/

namespace CoralViz

/-- A raw spreadsheet cell as the parser receives it: null or undefined,
a string, or a number. -/
inductive Cell where
  | null : Cell
  | str : String → Cell
  | num : ℚ → Cell
deriving DecidableEq

/-- Digit list to natural number, most significant first. -/
def digitsToNat (ds : List Char) : ℕ :=
  ds.foldl (fun n c => 10 * n + (c.toNat - Char.toNat '0')) 0

/-- Model of the JavaScript parseFloat builtin on strings: skip leading
whitespace, read an optional sign, a decimal mantissa and an optional
exponent, ignoring any trailing garbage; none when no digit is read
(the NaN outcome). The Infinity spellings are not modelled. -/
def jsParseFloat (s : String) : Option ℚ :=
  let cs := s.toList.dropWhile (fun c => c.isWhitespace)
  let sgn : ℚ := match cs with
    | '-' :: _ => -1
    | _ => 1
  let cs := match cs with
    | '-' :: rest => rest
    | '+' :: rest => rest
    | _ => cs
  let intDigits := cs.takeWhile (fun c : Char => c.isDigit)
  let afterInt := cs.dropWhile (fun c : Char => c.isDigit)
  let fracDigits := match afterInt with
    | '.' :: rest => rest.takeWhile (fun c : Char => c.isDigit)
    | _ => []
  let afterFrac := match afterInt with
    | '.' :: rest => rest.dropWhile (fun c : Char => c.isDigit)
    | _ => afterInt
  if intDigits = [] ∧ fracDigits = [] then none
  else
    let mantissa : ℚ :=
      (digitsToNat intDigits : ℚ) + (digitsToNat fracDigits : ℚ) / (10 : ℚ) ^ fracDigits.length
    let expVal : ℤ := match afterFrac with
      | e :: rest =>
        if e = 'e' ∨ e = 'E' then
          let esgn : ℤ := match rest with
            | '-' :: _ => -1
            | _ => 1
          let rest := match rest with
            | '-' :: r => r
            | '+' :: r => r
            | _ => rest
          let eDigits := rest.takeWhile (fun c => c.isDigit)
          if eDigits = [] then 0 else esgn * (digitsToNat eDigits : ℤ)
        else 0
      | [] => 0
    some (sgn * mantissa * (10 : ℚ) ^ expVal)

/-- The sentinel cells that parseMeasurement maps to an absent value:
the two not-applicable spellings, unknown, dead-at-measurement, null or
undefined, and the empty string. -/
def sentinelCells : List Cell :=
  [Cell.str "Na", Cell.str "na", Cell.str "UK", Cell.str "D", Cell.null, Cell.str ""]

/-- parseMeasurement from src/utils/dataTransform.ts: sentinel codes and
null-ish values give none, otherwise the value goes through parseFloat and
a NaN result gives none. -/
def parseMeasurement (val : Cell) : Option ℚ :=
  if val = Cell.str "Na" ∨ val = Cell.str "na" ∨ val = Cell.str "UK" ∨ val = Cell.str "D"
      ∨ val = Cell.null ∨ val = Cell.str "" then
    none
  else
    match val with
    | Cell.num q => some q
    | Cell.str s => jsParseFloat s
    | Cell.null => none

/-- JavaScript truthiness of a cell: null and undefined, the empty string and
the number 0 are falsy. -/
def cellTruthy (c : Cell) : Bool :=
  match c with
  | Cell.null => false
  | Cell.str s => decide (s ≠ "")
  | Cell.num q => decide (q ≠ 0)

/-- Models `f && f.toLowerCase().includes(sub)` on a stored optional field,
for a lowercase search string: true when the field holds a string that
contains sub. A field holding a number would throw in JavaScript and is not
reached on this data. -/
def cellIncludes (c : Option Cell) (sub : String) : Bool :=
  match c with
  | some (Cell.str s) => decide (1 < (s.toLower.splitOn sub).length)
  | _ => false

/-- The four canonical genus codes. -/
inductive Genus where
  | Poc | Por | Acr | Mil
deriving DecidableEq

/-- The two transects of the survey. -/
inductive Transect where
  | T01 | T02
deriving DecidableEq

/-- One observation of one colony in one year, as built by parseObservation
and enriched by enrichCoral. The three derived fields start absent. -/
structure CoralObservation where
  coral_id : ℤ
  transect : Transect
  genus : Genus
  x : ℚ
  y : ℚ
  year : ℤ
  diam1 : Option ℚ
  diam2 : Option ℚ
  height : Option ℚ
  observer : Option Cell
  status : Option Cell
  fate : Option Cell
  growth_ratio : Option ℚ
  is_alive : Bool
  is_recruit : Bool
  geometric_mean_diam : Option ℝ := none
  volume_proxy : Option ℚ := none
  growth_rate : Option ℝ := none

/-- parseObservation from src/utils/dataTransform.ts: reads one year block of
a row (an out-of-range index reads undefined, modelled as Cell.null), skips
the block when diam1, diam2 and height are all the literal string Na, and
otherwise builds an observation; is_alive records that no size field carries
the death code D, and is_recruit that the fate mentions recruitment. -/
def parseObservation (row : List Cell) (startCol : ℕ) (year : ℤ) (coralId : ℤ)
    (transect : Transect) (genus : Genus) (x y : ℚ) : Option CoralObservation :=
  let d1 := row.getD startCol Cell.null
  let d2 := row.getD (startCol + 1) Cell.null
  let h := row.getD (startCol + 2) Cell.null
  let observerCell := row.getD (startCol + 3) Cell.null
  let statusCell := row.getD (startCol + 4) Cell.null
  let growthRatioCell := row.getD (startCol + 6) Cell.null
  let fateCell := row.getD (startCol + 7) Cell.null
  if d1 = Cell.str "Na" ∧ d2 = Cell.str "Na" ∧ h = Cell.str "Na" then none
  else
    let fateField := if cellTruthy fateCell && decide (fateCell ≠ Cell.str "nan")
      then some fateCell else none
    some { coral_id := coralId, transect := transect, genus := genus, x := x, y := y,
           year := year,
           diam1 := parseMeasurement d1,
           diam2 := parseMeasurement d2,
           height := parseMeasurement h,
           observer := if cellTruthy observerCell && decide (observerCell ≠ Cell.str "nan")
             then some observerCell else none,
           status := if cellTruthy statusCell && decide (statusCell ≠ Cell.str "nan")
             then some statusCell else none,
           fate := fateField,
           growth_ratio := parseMeasurement growthRatioCell,
           is_alive := decide (d1 ≠ Cell.str "D") && decide (d2 ≠ Cell.str "D")
             && decide (h ≠ Cell.str "D"),
           is_recruit := cellIncludes fateField "recruitment" }

/-- One colony: metadata plus its observation list and the derived summary
fields computed by enrichCoral. max_size is a WithBot value because the
source takes Math.max over a possibly empty list, which gives minus
infinity. -/
structure Coral where
  id : ℤ
  transect : Transect
  genus : Genus
  x : ℚ
  y : ℚ
  z : ℚ
  observations : List CoralObservation
  recruitment_year : Option ℤ := none
  death_year : Option ℤ := none
  max_size : WithBot ℚ := 0
  lifespan : ℤ := 0

/-- JavaScript truthiness of an optional number: absent and 0 are falsy. -/
def jsTruthyQ (v : Option ℚ) : Bool :=
  match v with
  | none => false
  | some q => decide (q ≠ 0)

/-- Models the `a?.year || b` chain on optional years: an absent or zero
left operand falls through to the right operand. -/
def jsOrYear (a b : Option ℤ) : Option ℤ :=
  match a with
  | none => b
  | some v => if v = 0 then b else some v

/-- The numeric value of an optional size, as a real; only read behind
truthiness guards, where the default is dead. -/
def qToR (v : Option ℚ) : ℝ := ((v.getD 0 : ℚ) : ℝ)

/-- First enrichment pass of enrichCoral on one observation: when diam1,
diam2 and height are all present, set the geometric mean diameter to
sqrt(diam1 * diam2) and the volume proxy to diam1 * diam2 * height / 6;
otherwise leave the observation unchanged. -/
noncomputable def enrichObs (o : CoralObservation) : CoralObservation :=
  match o.diam1, o.diam2, o.height with
  | some d1, some d2, some h =>
    { o with geometric_mean_diam := some (Real.sqrt ((d1 : ℝ) * (d2 : ℝ))),
             volume_proxy := some (d1 * d2 * h / 6) }
  | _, _, _ => o

/-- Growth-rate step of enrichCoral: when the previous and current volume
proxies are both truthy, the growth rate becomes the log of their ratio. -/
noncomputable def growthStep (prev o : CoralObservation) : CoralObservation :=
  if jsTruthyQ prev.volume_proxy && jsTruthyQ o.volume_proxy then
    { o with growth_rate := some (Real.log (qToR o.volume_proxy / qToR prev.volume_proxy)) }
  else o

/-- The forEach pass of enrichCoral: each observation is enriched, and from
the second position on the growth rate is computed against the previous
already-enriched observation. -/
noncomputable def enrichList : Option CoralObservation → List CoralObservation → List CoralObservation
  | _, [] => []
  | prev, o :: rest =>
    let e0 := enrichObs o
    let e := match prev with
      | some p => growthStep p e0
      | none => e0
    e :: enrichList (some e) rest

/-- enrichCoral from src/utils/dataTransform.ts: run the enrichment pass, then
compute the colony summaries. recruitment_year is the year of the first
recruit-flagged observation, else the first alive year; death_year the year
of the first observation whose fate mentions death; max_size the maximum
volume proxy over alive observations; lifespan the NUMBER of alive
observations. -/
noncomputable def enrichCoral (c : Coral) : Coral :=
  let obs := enrichList none c.observations
  let aliveObs := obs.filter (fun o => o.is_alive)
  { c with
    observations := obs,
    recruitment_year :=
      jsOrYear ((obs.find? (fun o => o.is_recruit)).map (fun o => o.year))
        (jsOrYear ((aliveObs.head?).map (fun o => o.year)) none),
    death_year :=
      jsOrYear ((obs.find? (fun o => cellIncludes o.fate "death")).map (fun o => o.year)) none,
    max_size := (aliveObs.map (fun o => ((o.volume_proxy.getD 0 : ℚ) : WithBot ℚ))).foldr max ⊥,
    lifespan := (aliveObs.length : ℤ) }

/-- Stable insertion of one element into a sorted accumulator: the new
element goes after every element the comparator puts no later than it.
Together with jsSortBy this models the ECMAScript Array.prototype.sort
contract (a stable sort consistent with the comparator). -/
def jsInsert {α : Type _} (le : α → α → Bool) (x : α) : List α → List α
  | [] => [x]
  | y :: ys => if le y x then y :: jsInsert le x ys else x :: y :: ys

/-- Model of Array.prototype.sort with a numeric comparator: a stable
ascending sort. The JavaScript call sorts the receiver in place; the
embedding returns the post-call content of the array. -/
def jsSortBy {α : Type _} (le : α → α → Bool) (l : List α) : List α :=
  l.foldl (fun acc x => jsInsert le x acc) []

/-- Models `a || b` where a is an optional integer and b an integer:
an absent or zero left operand falls through to b. -/
def jsOrIntD (a : Option ℤ) (b : ℤ) : ℤ :=
  match a with
  | none => b
  | some v => if v = 0 then b else v

/-- One observation as the JSON loader builds it: absent numeric fields
were already coerced to 0 with the or-zero idiom, so sizes are plain
rationals and growth starts at 0. Fields not used by any derived
computation are omitted. -/
structure JsonObs where
  year : ℤ
  geometric_mean_diam : ℚ
  growth_rate : ℝ
  growth_ratio : ℚ
  is_alive : Bool

/-- One colony of the JSON loader before or after the derived-field pass. -/
structure JsonColony where
  id : ℤ
  observations : List JsonObs
  recruitment_year : Option ℤ := none
  death_year : Option ℤ := none
  max_size : WithBot ℚ := ⊥
  lifespan : ℤ := 0

/-- The comparator (a, b) => a.year - b.year used on observations. -/
def jsObsLe (a b : JsonObs) : Bool := decide (a.year ≤ b.year)

/-- The growth loop of the JSON loader from index 1 on: when the previous
and current geometric mean diameters are truthy and the previous one is
positive, the current growth rate and ratio are set; the mutated current
observation is the next previous. -/
noncomputable def jsonGrowthGo : JsonObs → List JsonObs → List JsonObs
  | _, [] => []
  | prev, curr :: rest =>
    let curr2 :=
      if decide (prev.geometric_mean_diam ≠ 0) && decide (curr.geometric_mean_diam ≠ 0)
          && decide (0 < prev.geometric_mean_diam) then
        { curr with
          growth_rate :=
            Real.log ((curr.geometric_mean_diam : ℝ) / (prev.geometric_mean_diam : ℝ)),
          growth_ratio := curr.geometric_mean_diam / prev.geometric_mean_diam }
      else curr
    curr2 :: jsonGrowthGo curr2 rest

/-- The growth loop starts at index 1, so the head is untouched. -/
noncomputable def jsonGrowthPass : List JsonObs → List JsonObs
  | [] => []
  | o :: rest => o :: jsonGrowthGo o rest

/-- The derived-field pass of useCoralDataJSON: sort observations by year,
take the first year as recruitment year and the year of the first
observation not marked alive as death year (both through the or-null
idiom), run the growth loop, recompute max size, and set lifespan to
death year minus recruitment year when a death year is present, else last
observed year minus recruitment year. The or-null idiom never stores
some 0, so testing the stored death year for presence matches the
JavaScript truthiness test. -/
noncomputable def deriveColonyJson (c : JsonColony) : JsonColony :=
  let sorted := jsSortBy jsObsLe c.observations
  let recruitment := jsOrYear ((sorted.head?).map (fun o => o.year)) none
  let death := jsOrYear ((sorted.find? (fun o => !o.is_alive)).map (fun o => o.year)) none
  let withGrowth := jsonGrowthPass sorted
  let maxSize := (withGrowth.map (fun o =>
      ((if o.geometric_mean_diam = 0 then (0 : ℚ) else o.geometric_mean_diam) : WithBot ℚ))).foldr max ⊥
  let lastYear : ℤ := jsOrIntD ((withGrowth.getLast?).map (fun o => o.year)) 0
  let recruitBase : ℤ := jsOrIntD recruitment 0
  { c with
    observations := withGrowth,
    recruitment_year := recruitment,
    death_year := death,
    max_size := maxSize,
    lifespan := match death with
      | some d => d - recruitBase
      | none => lastYear - recruitBase }

/-- One survival event: duration to death or censoring, the event flag
(1 = death, 0 = censored) and the genus tag. -/
structure SurvivalEvent where
  duration : ℚ
  event : ℤ
  genus : String
deriving DecidableEq

/-- The comparator (a, b) => a.duration - b.duration of kaplanMeier. -/
def survComparator (a b : SurvivalEvent) : Bool := decide (a.duration ≤ b.duration)

/-- One point of the survival curve. -/
structure KMPoint where
  time : ℚ
  survival : ℚ
deriving DecidableEq

/-- The loop state of kaplanMeier. The steps field is instrumentation with
no counterpart in the source: it records the pair (at-risk, deaths) used as
(denominator, numerator offset) at each multiplicative step, so that the
division-safety claim can be stated. -/
structure KMState where
  atRisk : ℤ
  survival : ℚ
  curve : List KMPoint
  currentTime : ℚ
  deaths : ℤ
  censored : ℤ
  steps : List (ℤ × ℤ)
deriving DecidableEq

/-- The multiplicative step of kaplanMeier when the time changes with
pending deaths: multiply survival by (atRisk - deaths) / atRisk, push the
point, subtract the processed group from at-risk and reset the group
counters. -/
def kmMultiply (s : KMState) : KMState :=
  let newSurvival := s.survival * (((s.atRisk - s.deaths : ℤ) : ℚ) / ((s.atRisk : ℤ) : ℚ))
  { s with survival := newSurvival,
           curve := s.curve ++ [⟨s.currentTime, newSurvival⟩],
           atRisk := s.atRisk - (s.deaths + s.censored),
           deaths := 0,
           censored := 0,
           steps := s.steps ++ [(s.atRisk, s.deaths)] }

/-- One iteration of the kaplanMeier loop body on one sorted event. -/
def kmStep (s : KMState) (e : SurvivalEvent) : KMState :=
  let s1 := if e.duration ≠ s.currentTime ∧ 0 < s.deaths then kmMultiply s else s
  let s2 := { s1 with currentTime := e.duration }
  if e.event = 1 then { s2 with deaths := s2.deaths + 1 }
  else { s2 with censored := s2.censored + 1 }

/-- The final time point handling of kaplanMeier: one more multiplication
and push when deaths are pending, without touching at-risk. -/
def kmFinal (s : KMState) : KMState :=
  if 0 < s.deaths then
    let newSurvival := s.survival * (((s.atRisk - s.deaths : ℤ) : ℚ) / ((s.atRisk : ℤ) : ℚ))
    { s with survival := newSurvival,
             curve := s.curve ++ [⟨s.currentTime, newSurvival⟩],
             steps := s.steps ++ [(s.atRisk, s.deaths)] }
  else s

/-- The initial state of kaplanMeier: at-risk is the event count, survival
1, the curve starts at (0, 1), current time 0. -/
def kmInit (events : List SurvivalEvent) : KMState :=
  { atRisk := (events.length : ℤ), survival := 1, curve := [⟨0, 1⟩],
    currentTime := 0, deaths := 0, censored := 0, steps := [] }

/-- kaplanMeier from src/utils/statistics.ts as a state fold: sort the
events ascending by duration (in place in the source), run the loop, then
handle the final time point. -/
def kmRun (events : List SurvivalEvent) : KMState :=
  kmFinal ((jsSortBy survComparator events).foldl kmStep (kmInit events))

/-- The survival curve kaplanMeier returns. -/
def kaplanMeier (events : List SurvivalEvent) : List KMPoint := (kmRun events).curve

/-- The (at-risk, deaths) pair of every multiplicative step kaplanMeier
performs on the given input. -/
def kaplanMeierSteps (events : List SurvivalEvent) : List (ℤ × ℤ) := (kmRun events).steps

/-- The content of the CALLER-OWNED events array after kaplanMeier returns:
the source sorts the input in place with Array.prototype.sort, so the
caller observes the sorted order. -/
def kaplanMeierInputAfter (events : List SurvivalEvent) : List SurvivalEvent :=
  jsSortBy survComparator events

/-- The loop invariant of kaplanMeier over a total of N events after k have
been consumed: the group counters are non-negative and account for exactly
the consumed events not yet subtracted from at-risk, survival stays
non-negative and below every curve point, the curve starts at (0, 1) and is
non-increasing, and every recorded multiplicative step had deaths at most
at-risk with at-risk positive. -/
def KMInv (N k : ℤ) (s : KMState) : Prop :=
  0 ≤ s.deaths ∧ 0 ≤ s.censored ∧
  s.atRisk = N - k + s.deaths + s.censored ∧
  s.deaths + s.censored ≤ k ∧
  0 ≤ s.survival ∧
  s.curve.head? = some ⟨0, 1⟩ ∧
  s.curve.Pairwise (fun p q => q.survival ≤ p.survival) ∧
  (∀ p ∈ s.curve, s.survival ≤ p.survival) ∧
  (∀ st ∈ s.steps, st.2 ≤ st.1 ∧ 0 < st.1)

/-- One bin of the size-frequency histogram: edges and count. -/
structure SizeBin where
  x0 : ℝ
  x1 : ℝ
  count : ℕ

/-- Math.min over a spread list; 0 stands in for the empty case, which the
guard in computeSizeBins makes unreachable (JavaScript would give
Infinity). -/
def listMin : List ℝ → ℝ
  | [] => 0
  | x :: xs => xs.foldl min x

/-- Math.max over a spread list; 0 stands in for the unreachable empty
case. -/
def listMax : List ℝ → ℝ
  | [] => 0
  | x :: xs => xs.foldl max x

/-- The i-th logarithmic bin edge of computeSizeBins:
10 ^ (log10 mn + i * ((log10 mx - log10 mn) / n)). -/
noncomputable def binEdge (mn mx : ℝ) (n : ℕ) (i : ℕ) : ℝ :=
  (10 : ℝ) ^ (Real.logb 10 mn + (i : ℝ) * ((Real.logb 10 mx - Real.logb 10 mn) / (n : ℝ)))

/-- computeSizeBins from src/utils/statistics.ts: empty input gives the
empty list; otherwise binCount log-spaced bins from the minimum to the
maximum of ALL values (no sign filtering happens), each counting the values
in the half-open interval [x0, x1). -/
noncomputable def computeSizeBins (values : List ℝ) (binCount : ℕ) : List SizeBin :=
  if values = [] then []
  else
    let logMin := Real.logb 10 (listMin values)
    let logMax := Real.logb 10 (listMax values)
    let logStep := (logMax - logMin) / (binCount : ℝ)
    (List.range binCount).map (fun (i : ℕ) =>
      let x0 := (10 : ℝ) ^ (logMin + (i : ℝ) * logStep)
      let x1 := (10 : ℝ) ^ (logMin + ((i : ℝ) + 1) * logStep)
      { x0 := x0, x1 := x1,
        count := (values.filter (fun v => decide (x0 ≤ v) && decide (v < x1))).length })

/-- The size metric options of the view state. -/
inductive SizeMetric where
  | volume_proxy | geometric_mean_diam | diam1
deriving DecidableEq

/-- The map colouring options of the view state. -/
inductive MapColorBy where
  | genus | fate | size
deriving DecidableEq

/-- The population panel metric options of the view state. -/
inductive PopulationMetric where
  | count | recruitment | mortality | mean_size
deriving DecidableEq

/-- FilterState of src/store/useStore.ts. -/
structure FilterState where
  selectedGenera : List Genus
  selectedTransects : List Transect
  yearRange : ℤ × ℤ
  currentYear : ℤ
  minSize : ℚ
  maxSize : ℚ
deriving DecidableEq

/-- UIState of src/store/useStore.ts: the colony selection lives here, not
in the filters. -/
structure UIState where
  selectedCoralIds : List ℤ
  hoveredCoralId : Option ℤ
  playAnimation : Bool
  animationSpeed : ℚ
deriving DecidableEq

/-- ViewState of src/store/useStore.ts. -/
structure ViewState where
  sizeMetric : SizeMetric
  mapColorBy : MapColorBy
  populationMetric : PopulationMetric
deriving DecidableEq

/-- The store state of useStore: data, filters, UI and view slices. -/
structure AppState where
  corals : List Coral
  isLoading : Bool
  error : Option String
  filters : FilterState
  ui : UIState
  view : ViewState

/-- initialFilters of src/store/useStore.ts. -/
def initialFilters : FilterState :=
  { selectedGenera := [Genus.Poc, Genus.Por, Genus.Acr, Genus.Mil],
    selectedTransects := [Transect.T01, Transect.T02],
    yearRange := (2013, 2023), currentYear := 2013, minSize := 0, maxSize := 10000 }

/-- initialUI of src/store/useStore.ts. -/
def initialUI : UIState :=
  { selectedCoralIds := [], hoveredCoralId := none, playAnimation := false,
    animationSpeed := 1 }

/-- initialView of src/store/useStore.ts. -/
def initialView : ViewState :=
  { sizeMetric := SizeMetric.volume_proxy, mapColorBy := MapColorBy.genus,
    populationMetric := PopulationMetric.count }

/-- A partial filter update, as passed to updateFilters: absent fields keep
their current value under the object spread of the store. -/
structure FilterUpdate where
  selectedGenera : Option (List Genus) := none
  selectedTransects : Option (List Transect) := none
  yearRange : Option (ℤ × ℤ) := none
  currentYear : Option ℤ := none
  minSize : Option ℚ := none
  maxSize : Option ℚ := none

/-- The spread merge of updateFilters on the filter slice. -/
def applyFilterUpdate (f : FilterState) (u : FilterUpdate) : FilterState :=
  { selectedGenera := u.selectedGenera.getD f.selectedGenera,
    selectedTransects := u.selectedTransects.getD f.selectedTransects,
    yearRange := u.yearRange.getD f.yearRange,
    currentYear := u.currentYear.getD f.currentYear,
    minSize := u.minSize.getD f.minSize,
    maxSize := u.maxSize.getD f.maxSize }

/-- updateFilters of src/store/useStore.ts: replaces the filter slice by its
spread merge with the update, touching no other slice. -/
def updateFilters (s : AppState) (u : FilterUpdate) : AppState :=
  { s with filters := applyFilterUpdate s.filters u }

/-- selectCorals of src/store/useStore.ts: replaces the selection list. -/
def selectCorals (s : AppState) (ids : List ℤ) : AppState :=
  { s with ui := { s.ui with selectedCoralIds := ids } }

/-- The Reset All Filters button of src/components/FilterPanel.tsx: one
updateFilters call restoring the five filter fields it names to their
defaults; currentYear, the UI slice and the view slice are not mentioned. -/
def resetAllFilters (s : AppState) : AppState :=
  updateFilters s
    { selectedGenera := some [Genus.Poc, Genus.Por, Genus.Acr, Genus.Mil],
      selectedTransects := some [Transect.T01, Transect.T02],
      yearRange := some (2013, 2023),
      minSize := some 0, maxSize := some 10000 }

/-- Concrete input for claim C10: genus set narrowed to Poc, year range
narrowed to 2015-2018, and colony 5 selected. -/
def narrowedState : AppState :=
  { corals := [], isLoading := false, error := none,
    filters := { initialFilters with
                 selectedGenera := [Genus.Poc], yearRange := (2015, 2018) },
    ui := { initialUI with selectedCoralIds := [5] },
    view := initialView }

/-- A base observation with every raw field given and no derived field,
used to build concrete test inputs. -/
def obsBase : CoralObservation :=
  { coral_id := 1, transect := Transect.T01, genus := Genus.Poc, x := 0, y := 0,
    year := 2013, diam1 := none, diam2 := none, height := none,
    observer := none, status := none, fate := none, growth_ratio := none,
    is_alive := true, is_recruit := false }

/-- Concrete input for claim C8: both diameters present and non-negative,
height absent. -/
def gmdCex : CoralObservation := { obsBase with diam1 := some 2, diam2 := some 2 }

/-- Concrete input for the claim C8 witness: all three sizes present. -/
def gmdWitObs : CoralObservation :=
  { obsBase with diam1 := some 1, diam2 := some 4, height := some 2 }

/-- A base colony used to build concrete test inputs. -/
def coralBase : Coral :=
  { id := 1, transect := Transect.T01, genus := Genus.Poc, x := 0, y := 0, z := 0,
    observations := [] }

/-- Concrete input for claim C5: volume proxies 1 then 0 in consecutive
years (the second observation has a zero diameter). -/
def c5cex : Coral :=
  { coralBase with observations :=
      [{ obsBase with year := 2013, diam1 := some 1, diam2 := some 2, height := some 3 },
       { obsBase with year := 2014, diam1 := some 0, diam2 := some 1, height := some 1 }] }

/-- Concrete input for the claim C5 witness: volume proxies 1 then 4. -/
def c5wit : Coral :=
  { coralBase with observations :=
      [{ obsBase with year := 2013, diam1 := some 1, diam2 := some 2, height := some 3 },
       { obsBase with year := 2014, diam1 := some 2, diam2 := some 3, height := some 4 }] }

/-- The two observations of c5cex as the enrichment pass leaves them. -/
noncomputable def c5cexE0 : CoralObservation :=
  { obsBase with
    year := 2013, diam1 := some 1, diam2 := some 2, height := some 3,
    geometric_mean_diam := some (Real.sqrt (((1 : ℚ) : ℝ) * ((2 : ℚ) : ℝ))),
    volume_proxy := some (1 * 2 * 3 / 6) }

/-- Second enriched observation of c5cex: its volume proxy is 0, so the
growth step leaves the growth rate absent. -/
noncomputable def c5cexE1 : CoralObservation :=
  { obsBase with
    year := 2014, diam1 := some 0, diam2 := some 1, height := some 1,
    geometric_mean_diam := some (Real.sqrt (((0 : ℚ) : ℝ) * ((1 : ℚ) : ℝ))),
    volume_proxy := some (0 * 1 * 1 / 6) }

/-- The two observations of c5wit as the enrichment pass leaves them. -/
noncomputable def c5witE0 : CoralObservation :=
  { obsBase with
    year := 2013, diam1 := some 1, diam2 := some 2, height := some 3,
    geometric_mean_diam := some (Real.sqrt (((1 : ℚ) : ℝ) * ((2 : ℚ) : ℝ))),
    volume_proxy := some (1 * 2 * 3 / 6) }

/-- Second enriched observation of c5wit, growth rate set by the pass. -/
noncomputable def c5witE1 : CoralObservation :=
  { obsBase with
    year := 2014, diam1 := some 2, diam2 := some 3, height := some 4,
    geometric_mean_diam := some (Real.sqrt (((2 : ℚ) : ℝ) * ((3 : ℚ) : ℝ))),
    volume_proxy := some (2 * 3 * 4 / 6),
    growth_rate := some (Real.log (((2 * 3 * 4 / 6 : ℚ) : ℝ) / ((1 * 2 * 3 / 6 : ℚ) : ℝ))) }

/-- Concrete input for claim C7: a year block whose three size cells are all
the literal string Na. -/
def c7row : List Cell :=
  [Cell.str "Na", Cell.str "Na", Cell.str "Na", Cell.null, Cell.null, Cell.null,
   Cell.null, Cell.null]

/-- Concrete input for claim C9: two alive observations in 2013 and 2016,
no death fate. -/
def c9cex : Coral :=
  { coralBase with observations :=
      [{ obsBase with year := 2013 }, { obsBase with year := 2016 }] }

end CoralViz

namespace CoralViz

/-- Helper: each sentinel cell parses to the absent value. -/
theorem parseMeasurement_sentinel : ∀ c ∈ sentinelCells, parseMeasurement c = none := by
  intro c hc
  simp only [sentinelCells, List.mem_cons, List.not_mem_nil, or_false] at hc
  rcases hc with h | h | h | h | h | h <;> subst h <;> rfl

/-- Claim C6: parsing a numeric measurement is total; each sentinel cell maps
to the absent value none, never to some 0, and a string that parseFloat
cannot read (the NaN case) also maps to none. -/
theorem parseMeasurement_spec :
    (∀ c ∈ sentinelCells, parseMeasurement c = none) ∧
    (∀ c ∈ sentinelCells, parseMeasurement c ≠ some 0) ∧
    (∀ s : String, jsParseFloat s = none → parseMeasurement (Cell.str s) = none) := by
  refine ⟨parseMeasurement_sentinel, ?_, ?_⟩
  · intro c hc
    rw [parseMeasurement_sentinel c hc]
    exact Option.noConfusion
  · intro s hs
    unfold parseMeasurement
    split
    · rfl
    · simp [hs]

/-- Witness for claim C6 at concrete inputs: the unknown sentinel and a
non-numeric string both parse to the absent value. -/
theorem parseMeasurement_spec_witness :
    parseMeasurement (Cell.str "UK") = none ∧
    parseMeasurement (Cell.str "hello") = none :=
  ⟨parseMeasurement_spec.1 (Cell.str "UK") (by decide),
   parseMeasurement_spec.2.2 "hello" (by decide)⟩

/-- Helper: the first enrichment pass never touches the growth rate. -/
theorem enrichObs_growth_rate (o : CoralObservation) :
    (enrichObs o).growth_rate = o.growth_rate := by
  unfold enrichObs
  split <;> rfl

/-- Helper: the growth step never touches the volume proxy. -/
theorem growthStep_volume (p o : CoralObservation) :
    (growthStep p o).volume_proxy = o.volume_proxy := by
  unfold growthStep
  split <;> rfl

/-- Helper: when any of the three raw sizes is absent, the first enrichment
pass returns the observation unchanged. -/
theorem enrichObs_of_absent (o : CoralObservation)
    (h : o.diam1 = none ∨ o.diam2 = none ∨ o.height = none) : enrichObs o = o := by
  unfold enrichObs
  rcases h with h | h | h <;> rw [h] <;> rcases o.diam1 with _ | d1 <;>
    rcases o.diam2 with _ | d2 <;> rcases o.height with _ | hh <;> rfl

/-- Claim C8 (amended): the derived geometric mean diameter is present
exactly when diam1, diam2 AND height are all present (the source also
requires the height, and checks no signs); when it is present and both
diameters are non-negative it equals sqrt(diam1 * diam2), which is
non-negative and at most the larger diameter. -/
theorem enrichObs_gmd_spec (o : CoralObservation)
    (h0 : o.geometric_mean_diam = none) :
    ((enrichObs o).geometric_mean_diam.isSome ↔
        (o.diam1.isSome ∧ o.diam2.isSome ∧ o.height.isSome)) ∧
    (∀ d1 d2 h, o.diam1 = some d1 → o.diam2 = some d2 → o.height = some h →
      0 ≤ d1 → 0 ≤ d2 →
      (enrichObs o).geometric_mean_diam = some (Real.sqrt ((d1 : ℝ) * (d2 : ℝ))) ∧
      0 ≤ Real.sqrt ((d1 : ℝ) * (d2 : ℝ)) ∧
      Real.sqrt ((d1 : ℝ) * (d2 : ℝ)) ≤ max (d1 : ℝ) (d2 : ℝ)) := by
  constructor
  · rcases hd1 : o.diam1 with _ | d1 <;> rcases hd2 : o.diam2 with _ | d2 <;>
      rcases hd3 : o.height with _ | hh <;>
      simp [enrichObs, hd1, hd2, hd3, h0]
  · intro d1 d2 h hd1 hd2 hh hn1 hn2
    refine ⟨by simp [enrichObs, hd1, hd2, hh], Real.sqrt_nonneg _, ?_⟩
    have hm : (0 : ℝ) ≤ max (d1 : ℝ) (d2 : ℝ) :=
      le_trans (by exact_mod_cast hn1) (le_max_left _ _)
    have hle : (d1 : ℝ) * (d2 : ℝ) ≤ max (d1 : ℝ) (d2 : ℝ) * max (d1 : ℝ) (d2 : ℝ) :=
      mul_le_mul (le_max_left _ _) (le_max_right _ _) (by exact_mod_cast hn2) hm
    calc Real.sqrt ((d1 : ℝ) * (d2 : ℝ))
        ≤ Real.sqrt (max (d1 : ℝ) (d2 : ℝ) * max (d1 : ℝ) (d2 : ℝ)) := Real.sqrt_le_sqrt hle
      _ = max (d1 : ℝ) (d2 : ℝ) := Real.sqrt_mul_self hm

/-- Witness for claim C8 at diam1 = 1, diam2 = 4, height = 2. -/
theorem enrichObs_gmd_spec_witness :
    (gmdWitObs.geometric_mean_diam = none ∧ gmdWitObs.diam1 = some 1 ∧
      gmdWitObs.diam2 = some 4 ∧ gmdWitObs.height = some 2 ∧
      (0 : ℚ) ≤ 1 ∧ (0 : ℚ) ≤ 4) ∧
    (enrichObs gmdWitObs).geometric_mean_diam =
      some (Real.sqrt (((1 : ℚ) : ℝ) * ((4 : ℚ) : ℝ))) :=
  ⟨⟨rfl, rfl, rfl, rfl, by norm_num, by norm_num⟩,
   ((enrichObs_gmd_spec gmdWitObs rfl).2 1 4 2 rfl rfl rfl (by norm_num) (by norm_num)).1⟩

/-- Counterexample for claim C8 as stated: both diameters present and
non-negative, yet the geometric mean diameter stays absent because the
height is absent. -/
theorem enrichObs_gmd_counterexample :
    gmdCex.diam1 = some 2 ∧ gmdCex.diam2 = some 2 ∧ (0 : ℚ) ≤ 2 ∧
    gmdCex.height = none ∧
    (enrichObs gmdCex).geometric_mean_diam = none :=
  ⟨rfl, rfl, by norm_num, rfl, by rw [enrichObs_of_absent gmdCex (by tauto)]; rfl⟩

/-- Helper: an observation whose diam1 and derived fields are absent keeps
those derived fields absent through the first enrichment pass. -/
theorem enrichObs_absent_derived (o : CoralObservation) (h : o.diam1 = none)
    (hg : o.geometric_mean_diam = none) (hv : o.volume_proxy = none) :
    (enrichObs o).geometric_mean_diam = none ∧ (enrichObs o).volume_proxy = none := by
  rw [enrichObs_of_absent o (Or.inl h)]
  exact ⟨hg, hv⟩

/-- Helper: parseObservation on an explicit eight-cell year block at start
column 0, with the cell reads and let bindings reduced. -/
theorem parseObservation_cons (c1 c2 c3 cObs cSt cx cGr cFt : Cell) (year coralId : ℤ)
    (tr : Transect) (g : Genus) (px py : ℚ) :
    parseObservation [c1, c2, c3, cObs, cSt, cx, cGr, cFt] 0 year coralId tr g px py =
      if c1 = Cell.str "Na" ∧ c2 = Cell.str "Na" ∧ c3 = Cell.str "Na" then none
      else
        some { coral_id := coralId, transect := tr, genus := g, x := px, y := py,
               year := year,
               diam1 := parseMeasurement c1,
               diam2 := parseMeasurement c2,
               height := parseMeasurement c3,
               observer := if cellTruthy cObs && decide (cObs ≠ Cell.str "nan")
                 then some cObs else none,
               status := if cellTruthy cSt && decide (cSt ≠ Cell.str "nan")
                 then some cSt else none,
               fate := if cellTruthy cFt && decide (cFt ≠ Cell.str "nan")
                 then some cFt else none,
               growth_ratio := parseMeasurement cGr,
               is_alive := decide (c1 ≠ Cell.str "D") && decide (c2 ≠ Cell.str "D")
                 && decide (c3 ≠ Cell.str "D"),
               is_recruit := cellIncludes
                 (if cellTruthy cFt && decide (cFt ≠ Cell.str "nan")
                   then some cFt else none) "recruitment" } := rfl

/-- Claim C7 (amended): a year block whose three size cells carry sentinel
codes but are NOT all the literal Na parses to an observation whose three
raw sizes are absent, whose geometric mean diameter and volume proxy stay
absent after enrichment, and whose alive flag is exactly the absence of
the death code D among the three size cells; the all-Na block is instead
skipped entirely (see the counterexample). -/
theorem parseObservation_sentinel_spec
    (c1 c2 c3 cObs cSt cx cGr cFt : Cell) (year coralId : ℤ)
    (tr : Transect) (g : Genus) (px py : ℚ)
    (h1 : c1 ∈ sentinelCells) (h2 : c2 ∈ sentinelCells) (h3 : c3 ∈ sentinelCells)
    (hna : ¬(c1 = Cell.str "Na" ∧ c2 = Cell.str "Na" ∧ c3 = Cell.str "Na")) :
    ∃ o, parseObservation [c1, c2, c3, cObs, cSt, cx, cGr, cFt] 0 year coralId tr g px py
        = some o ∧
      o.diam1 = none ∧ o.diam2 = none ∧ o.height = none ∧
      (enrichObs o).geometric_mean_diam = none ∧
      (enrichObs o).volume_proxy = none ∧
      o.is_alive = (decide (c1 ≠ Cell.str "D") && decide (c2 ≠ Cell.str "D")
        && decide (c3 ≠ Cell.str "D")) := by
  rw [parseObservation_cons, if_neg hna]
  refine ⟨_, rfl, parseMeasurement_sentinel c1 h1, parseMeasurement_sentinel c2 h2,
    parseMeasurement_sentinel c3 h3,
    (enrichObs_absent_derived _ (parseMeasurement_sentinel c1 h1) rfl rfl).1,
    (enrichObs_absent_derived _ (parseMeasurement_sentinel c1 h1) rfl rfl).2, rfl⟩

/-- Witness for claim C7: all three size cells hold the lowercase
not-applicable code na. -/
theorem parseObservation_sentinel_spec_witness :
    ∃ o, parseObservation
        [Cell.str "na", Cell.str "na", Cell.str "na", Cell.null, Cell.null, Cell.null,
         Cell.null, Cell.null] 0 2013 1 Transect.T01 Genus.Poc 0 0 = some o ∧
      o.diam1 = none ∧ o.diam2 = none ∧ o.height = none ∧
      (enrichObs o).geometric_mean_diam = none ∧
      (enrichObs o).volume_proxy = none ∧
      o.is_alive = (decide (Cell.str "na" ≠ Cell.str "D")
        && decide (Cell.str "na" ≠ Cell.str "D")
        && decide (Cell.str "na" ≠ Cell.str "D")) :=
  parseObservation_sentinel_spec (Cell.str "na") (Cell.str "na") (Cell.str "na")
    Cell.null Cell.null Cell.null Cell.null Cell.null 2013 1 Transect.T01 Genus.Poc 0 0
    (by decide) (by decide) (by decide) (by decide)

/-- Counterexample for claim C7 as stated: a record whose three size fields
all carry the literal not-applicable code Na yields NO observation at all;
the source skips the year block instead of building an observation with
absent sizes. -/
theorem parseObservation_allNa_counterexample :
    parseObservation c7row 0 2013 1 Transect.T01 Genus.Poc 0 0 = none := rfl

/-- Helper: the growth step against an arbitrary previous observation sets
the growth rate to the log ratio when both volume proxies are truthy and
leaves it absent otherwise, for a current observation entering with no
growth rate. -/
theorem growthStep_spec (pv o2 : CoralObservation) (hg : o2.growth_rate = none) :
    ((jsTruthyQ pv.volume_proxy
        && jsTruthyQ (growthStep pv (enrichObs o2)).volume_proxy) = true →
      (growthStep pv (enrichObs o2)).growth_rate
        = some (Real.log (qToR (growthStep pv (enrichObs o2)).volume_proxy
            / qToR pv.volume_proxy))) ∧
    ((jsTruthyQ pv.volume_proxy
        && jsTruthyQ (growthStep pv (enrichObs o2)).volume_proxy) = false →
      (growthStep pv (enrichObs o2)).growth_rate = none) := by
  rw [growthStep_volume]
  constructor
  · intro hcond
    unfold growthStep
    rw [if_pos hcond]
  · intro hcond
    unfold growthStep
    rw [if_neg (by simp [hcond]), enrichObs_growth_rate, hg]

/-- Helper: adjacency along the enrichment pass. For observations entering
with no growth rate, the growth rate at any position follows the truthiness
guard of the source: set to the log ratio of the two enriched volume
proxies when both are truthy, left absent otherwise. -/
theorem enrichList_adjacent (l : List CoralObservation)
    (hg : ∀ o ∈ l, o.growth_rate = none) :
    ∀ (prev : Option CoralObservation) (i : ℕ) (oi oj : CoralObservation),
      (enrichList prev l)[i]? = some oi →
      (enrichList prev l)[i + 1]? = some oj →
      ((jsTruthyQ oi.volume_proxy && jsTruthyQ oj.volume_proxy) = true →
        oj.growth_rate = some (Real.log (qToR oj.volume_proxy / qToR oi.volume_proxy))) ∧
      ((jsTruthyQ oi.volume_proxy && jsTruthyQ oj.volume_proxy) = false →
        oj.growth_rate = none) := by
  induction l with
  | nil =>
    intro prev i oi oj h1 _
    simp [enrichList] at h1
  | cons o rest ih =>
    intro prev i oi oj h1 h2
    have hg2 : ∀ o2 ∈ rest, o2.growth_rate = none :=
      fun o2 ho2 => hg o2 (List.mem_cons_of_mem o ho2)
    rcases prev with _ | p
    all_goals
      simp only [enrichList] at h1 h2
      cases i with
      | succ n =>
        simp only [List.getElem?_cons_succ] at h1 h2
        exact ih hg2 _ n oi oj h1 h2
      | zero =>
        simp only [List.getElem?_cons_zero, List.getElem?_cons_succ, Option.some.injEq] at h1 h2
        cases rest with
        | nil => simp [enrichList] at h2
        | cons o2 rest2 =>
          simp only [enrichList, List.getElem?_cons_zero, Option.some.injEq] at h2
          subst h1
          subst h2
          exact growthStep_spec _ o2 (hg o2 (by simp))

/-- Claim C5 (amended): along the enriched observation list, when the volume
proxies at positions i and i+1 are both present and positive the growth
rate at position i+1 is the log of their ratio; it stays absent when either
volume proxy is absent OR ZERO at either position (the source guards the
current size with the same truthiness test as the previous one). -/
theorem enrichCoral_growth_spec (c : Coral)
    (hg : ∀ o ∈ c.observations, o.growth_rate = none) :
    ∀ (i : ℕ) (oi oj : CoralObservation),
      (enrichCoral c).observations[i]? = some oi →
      (enrichCoral c).observations[i + 1]? = some oj →
      (∀ p q, oi.volume_proxy = some p → 0 < p → oj.volume_proxy = some q → 0 < q →
        oj.growth_rate = some (Real.log ((q : ℝ) / (p : ℝ)))) ∧
      ((oi.volume_proxy = none ∨ oj.volume_proxy = none ∨
          oi.volume_proxy = some 0 ∨ oj.volume_proxy = some 0) →
        oj.growth_rate = none) := by
  intro i oi oj h1 h2
  have hobs : (enrichCoral c).observations = enrichList none c.observations := rfl
  rw [hobs] at h1 h2
  have key := enrichList_adjacent c.observations hg none i oi oj h1 h2
  constructor
  · intro p q hp hp0 hq hq0
    have hc : (jsTruthyQ oi.volume_proxy && jsTruthyQ oj.volume_proxy) = true := by
      simp only [jsTruthyQ, hp, hq, Bool.and_eq_true, decide_eq_true_eq]
      exact ⟨ne_of_gt hp0, ne_of_gt hq0⟩
    have hgr := key.1 hc
    simpa only [qToR, hp, hq, Option.getD_some] using hgr
  · intro hdisj
    apply key.2
    rcases hdisj with h | h | h | h <;> simp [jsTruthyQ, h]

set_option maxHeartbeats 1000000 in
/-- Witness for claim C5: volume proxies 1 then 4 give growth rate
log(4 / 1) at the second position. -/
theorem enrichCoral_growth_spec_witness :
    ∃ oj, (enrichCoral c5wit).observations[1]? = some oj ∧
      oj.growth_rate = some (Real.log (((4 : ℚ) : ℝ) / ((1 : ℚ) : ℝ))) := by
  have hg : ∀ o ∈ c5wit.observations, o.growth_rate = none := by
    intro o ho
    simp only [c5wit, coralBase, obsBase, List.mem_cons, List.not_mem_nil, or_false] at ho
    rcases ho with h | h <;> subst h <;> rfl
  have h : (enrichCoral c5wit).observations = [c5witE0, c5witE1] := by
    show enrichList none c5wit.observations = [c5witE0, c5witE1]
    simp only [c5wit, coralBase]
    simp only [enrichList, enrichObs, growthStep, jsTruthyQ, qToR]
    norm_num [c5witE0, c5witE1, obsBase]
  refine ⟨c5witE1, by rw [h]; rfl, ?_⟩
  exact (enrichCoral_growth_spec c5wit hg 0 c5witE0 c5witE1 (by rw [h]; rfl)
    (by rw [h]; rfl)).1 1 4
    (by norm_num [c5witE0, obsBase]) (by norm_num) (by norm_num [c5witE1, obsBase])
    (by norm_num)

set_option maxHeartbeats 1000000 in
/-- Counterexample for claim C5 as stated: consecutive volume proxies 1 and
0, both present with the earlier one positive, leave the growth rate absent
where the claim asks for ln(0 / 1). -/
theorem enrichCoral_growth_counterexample :
    ∃ oi oj, (enrichCoral c5cex).observations[0]? = some oi ∧
      (enrichCoral c5cex).observations[1]? = some oj ∧
      oi.volume_proxy = some 1 ∧ (0 : ℚ) < 1 ∧ oj.volume_proxy = some 0 ∧
      oj.growth_rate = none := by
  have h : (enrichCoral c5cex).observations = [c5cexE0, c5cexE1] := by
    show enrichList none c5cex.observations = [c5cexE0, c5cexE1]
    simp only [c5cex, coralBase]
    simp only [enrichList, enrichObs, growthStep, jsTruthyQ, qToR]
    norm_num [c5cexE0, c5cexE1, obsBase]
  exact ⟨c5cexE0, c5cexE1, by rw [h]; rfl, by rw [h]; rfl,
    by norm_num [c5cexE0, obsBase], by norm_num,
    by norm_num [c5cexE1, obsBase], rfl⟩

/-- Helper: stable insertion adds one element to the length. -/
theorem jsInsert_length {α : Type _} (le : α → α → Bool) (x : α) (l : List α) :
    (jsInsert le x l).length = l.length + 1 := by
  induction l with
  | nil => rfl
  | cons y ys ih =>
    unfold jsInsert
    split <;> simp [ih]

/-- Helper: membership after stable insertion. -/
theorem jsInsert_mem {α : Type _} (le : α → α → Bool) (x y : α) (l : List α) :
    y ∈ jsInsert le x l ↔ y = x ∨ y ∈ l := by
  induction l with
  | nil => simp [jsInsert]
  | cons z zs ih =>
    unfold jsInsert
    split
    all_goals simp only [List.mem_cons, ih]
    all_goals tauto

/-- Helper: the sort model keeps the length. -/
theorem jsSortBy_length {α : Type _} (le : α → α → Bool) (l : List α) :
    (jsSortBy le l).length = l.length := by
  suffices h : ∀ (l acc : List α),
      (l.foldl (fun acc x => jsInsert le x acc) acc).length = acc.length + l.length by
    simpa using h l []
  intro l
  induction l with
  | nil => simp
  | cons x xs ih =>
    intro acc
    simp only [List.foldl_cons, ih, jsInsert_length, List.length_cons]
    omega

/-- Helper: the sort model keeps the members. -/
theorem jsSortBy_mem {α : Type _} (le : α → α → Bool) (y : α) (l : List α) :
    y ∈ jsSortBy le l ↔ y ∈ l := by
  suffices h : ∀ (l acc : List α),
      (y ∈ l.foldl (fun acc x => jsInsert le x acc) acc) ↔ y ∈ acc ∨ y ∈ l by
    simpa using h l []
  intro l
  induction l with
  | nil => simp
  | cons x xs ih =>
    intro acc
    simp only [List.foldl_cons, ih, jsInsert_mem, List.mem_cons]
    tauto

/-- Helper: the growth loop only writes growth fields, so the year sequence
is unchanged. -/
theorem jsonGrowthGo_years (prev : JsonObs) (l : List JsonObs) :
    (jsonGrowthGo prev l).map (fun o => o.year) = l.map (fun o => o.year) := by
  induction l generalizing prev with
  | nil => rfl
  | cons curr rest ih =>
    unfold jsonGrowthGo
    split <;> simp [ih]

/-- Helper: the whole growth pass keeps the year sequence. -/
theorem jsonGrowthPass_years (l : List JsonObs) :
    (jsonGrowthPass l).map (fun o => o.year) = l.map (fun o => o.year) := by
  cases l with
  | nil => rfl
  | cons o rest => simp [jsonGrowthPass, jsonGrowthGo_years]

/-- Claim C9 (amended): in the JSON loading path, for a colony with at least
one observation and positive years, lifespan equals death year minus
recruitment year when a death year is present and otherwise last observed
year minus recruitment year; the Excel-path enrichCoral instead sets
lifespan to the NUMBER of observations marked alive. -/
theorem lifespan_spec :
    (∀ c : JsonColony, c.observations ≠ [] → (∀ o ∈ c.observations, 0 < o.year) →
      ∃ r, (deriveColonyJson c).recruitment_year = some r ∧
        (∀ d, (deriveColonyJson c).death_year = some d →
          (deriveColonyJson c).lifespan = d - r) ∧
        ((deriveColonyJson c).death_year = none →
          ∃ olast, (deriveColonyJson c).observations.getLast? = some olast ∧
            (deriveColonyJson c).lifespan = olast.year - r)) ∧
    (∀ c : Coral, (enrichCoral c).lifespan =
      (((enrichCoral c).observations.filter (fun o => o.is_alive)).length : ℤ)) := by
  constructor
  · intro c hne hy
    have hsne : jsSortBy jsObsLe c.observations ≠ [] := by
      intro h0
      apply hne
      have hl := jsSortBy_length jsObsLe c.observations
      rw [h0] at hl
      exact List.length_eq_zero.mp hl.symm
    obtain ⟨o0, ho0⟩ : ∃ o0, (jsSortBy jsObsLe c.observations).head? = some o0 := by
      cases hs : jsSortBy jsObsLe c.observations with
      | nil => exact absurd hs hsne
      | cons a t => exact ⟨a, by simp⟩
    have h0pos : 0 < o0.year := by
      refine hy o0 ((jsSortBy_mem jsObsLe o0 c.observations).mp ?_)
      exact List.mem_of_mem_head? (by simp [ho0])
    have hwne : jsonGrowthPass (jsSortBy jsObsLe c.observations) ≠ [] := by
      intro h0
      apply hsne
      have hys := jsonGrowthPass_years (jsSortBy jsObsLe c.observations)
      rw [h0] at hys
      simpa using hys.symm
    refine ⟨o0.year, ?_, ?_, ?_⟩
    · simp only [deriveColonyJson, ho0, Option.map_some']
      simp [jsOrYear, show ¬o0.year = 0 by omega]
    · intro d hd
      simp only [deriveColonyJson] at hd ⊢
      cases hf : (jsSortBy jsObsLe c.observations).find? (fun o => !o.is_alive) with
      | none =>
        rw [hf] at hd
        simp [jsOrYear] at hd
      | some od =>
        have hdpos : 0 < od.year :=
          hy od ((jsSortBy_mem jsObsLe od c.observations).mp (List.mem_of_find?_eq_some hf))
        rw [hf] at hd
        simp only [Option.map_some', jsOrYear] at hd
        rw [if_neg (show ¬od.year = 0 by omega)] at hd
        rw [ho0]
        simp only [Option.map_some', jsOrYear]
        rw [if_neg (show ¬od.year = 0 by omega), if_neg (show ¬o0.year = 0 by omega)]
        simp only [jsOrIntD]
        rw [if_neg (show ¬o0.year = 0 by omega)]
        injection hd with hd
        omega
    · intro hdn
      simp only [deriveColonyJson] at hdn ⊢
      obtain ⟨olast, holast⟩ :
          ∃ x, (jsonGrowthPass (jsSortBy jsObsLe c.observations)).getLast? = some x := by
        cases hw : jsonGrowthPass (jsSortBy jsObsLe c.observations) with
        | nil => exact absurd hw hwne
        | cons a t => exact ⟨(a :: t).getLast (by simp), List.getLast?_eq_getLast _ _⟩
      have hyear : ∃ ol, (jsSortBy jsObsLe c.observations).getLast? = some ol ∧
          olast.year = ol.year := by
        have hm := jsonGrowthPass_years (jsSortBy jsObsLe c.observations)
        have h1 := List.getLast?_map (fun o : JsonObs => o.year)
          (jsonGrowthPass (jsSortBy jsObsLe c.observations))
        have h2 := List.getLast?_map (fun o : JsonObs => o.year)
          (jsSortBy jsObsLe c.observations)
        rw [hm] at h1
        rw [h1, holast] at h2
        cases hg : (jsSortBy jsObsLe c.observations).getLast? with
        | none =>
          rw [hg] at h2
          simp at h2
        | some ol =>
          rw [hg] at h2
          simp only [Option.map_some', Option.some.injEq] at h2
          exact ⟨ol, rfl, h2⟩
      obtain ⟨ol, hol, holy⟩ := hyear
      have holpos : 0 < ol.year :=
        hy ol ((jsSortBy_mem jsObsLe ol c.observations).mp (List.mem_of_getLast?_eq_some hol))
      refine ⟨olast, holast, ?_⟩
      rw [hdn, holast, ho0]
      simp only [Option.map_some', jsOrIntD, jsOrYear]
      rw [if_neg (show ¬o0.year = 0 by omega)]
      simp only [jsOrIntD]
      rw [if_neg (show ¬olast.year = 0 by rw [holy]; omega),
        if_neg (show ¬o0.year = 0 by omega)]
  · intro c
    rfl

/-- Helper: bounds on the Kaplan-Meier factor (atRisk - deaths) / atRisk
when the current group fits inside the at-risk population. -/
theorem kmFactor_bounds (atRisk deaths censored : ℤ) (hd : 0 < deaths)
    (hc : 0 ≤ censored) (hle : deaths + censored ≤ atRisk) :
    0 ≤ (((atRisk - deaths : ℤ) : ℚ) / ((atRisk : ℤ) : ℚ)) ∧
    (((atRisk - deaths : ℤ) : ℚ) / ((atRisk : ℤ) : ℚ)) ≤ 1 ∧
    deaths ≤ atRisk ∧ 0 < atRisk := by
  have h1 : (0 : ℤ) < atRisk := by omega
  have h2 : deaths ≤ atRisk := by omega
  have h1q : (0 : ℚ) < ((atRisk : ℤ) : ℚ) := by exact_mod_cast h1
  refine ⟨?_, ?_, h2, h1⟩
  · apply div_nonneg _ (le_of_lt h1q)
    exact_mod_cast (by omega : (0 : ℤ) ≤ atRisk - deaths)
  · rw [div_le_one h1q]
    exact_mod_cast (by omega : (atRisk - deaths : ℤ) ≤ atRisk)

/-- Helper: appending a point whose survival is below every existing curve
point keeps the curve invariants. -/
theorem curve_append_inv (curve : List KMPoint) (pt : KMPoint)
    (hhead : curve.head? = some ⟨0, 1⟩)
    (hpw : curve.Pairwise (fun p q => q.survival ≤ p.survival))
    (hub : ∀ p ∈ curve, pt.survival ≤ p.survival) :
    (curve ++ [pt]).head? = some ⟨0, 1⟩ ∧
    (curve ++ [pt]).Pairwise (fun p q => q.survival ≤ p.survival) ∧
    (∀ p ∈ curve ++ [pt], pt.survival ≤ p.survival) := by
  refine ⟨?_, ?_, ?_⟩
  · cases curve with
    | nil => simp at hhead
    | cons a t => simpa using hhead
  · rw [List.pairwise_append]
    exact ⟨hpw, List.pairwise_singleton _ _, fun a ha b hb => by
      rw [List.mem_singleton.mp hb]; exact hub a ha⟩
  · intro p hp
    rcases List.mem_append.mp hp with h | h
    · exact hub p h
    · rw [List.mem_singleton.mp h]

/-- Helper: the multiplicative step preserves the loop invariant when
deaths are pending. -/
theorem kmMultiply_inv (N k : ℤ) (s : KMState) (h : KMInv N k s)
    (hd : 0 < s.deaths) (hk : k ≤ N) : KMInv N k (kmMultiply s) := by
  obtain ⟨hd0, hc0, har, hdc, hsv, hhead, hpw, hub, hsteps⟩ := h
  have hle : s.deaths + s.censored ≤ s.atRisk := by omega
  obtain ⟨hf0, hf1, hdar, har0⟩ := kmFactor_bounds s.atRisk s.deaths s.censored hd hc0 hle
  have hsv0 : 0 ≤ s.survival * (((s.atRisk - s.deaths : ℤ) : ℚ) / ((s.atRisk : ℤ) : ℚ)) :=
    mul_nonneg hsv hf0
  have hsvle : s.survival * (((s.atRisk - s.deaths : ℤ) : ℚ) / ((s.atRisk : ℤ) : ℚ))
      ≤ s.survival := mul_le_of_le_one_right hsv hf1
  have hub2 : ∀ p ∈ s.curve,
      s.survival * (((s.atRisk - s.deaths : ℤ) : ℚ) / ((s.atRisk : ℤ) : ℚ)) ≤ p.survival :=
    fun p hp => le_trans hsvle (hub p hp)
  obtain ⟨hh, hpw2, hub3⟩ := curve_append_inv s.curve
    ⟨s.currentTime, s.survival * (((s.atRisk - s.deaths : ℤ) : ℚ) / ((s.atRisk : ℤ) : ℚ))⟩
    hhead hpw hub2
  unfold KMInv kmMultiply
  dsimp only
  refine ⟨le_refl 0, le_refl 0, by omega, by omega, hsv0, hh, hpw2, hub3, ?_⟩
  intro st hst
  rcases List.mem_append.mp hst with h | h
  · exact hsteps st h
  · rw [List.mem_singleton.mp h]
    exact ⟨hdar, har0⟩

/-- Helper: one loop iteration preserves the invariant, consuming one
event. -/
theorem kmStep_inv (N k : ℤ) (s : KMState) (e : SurvivalEvent)
    (h : KMInv N k s) (hk : k + 1 ≤ N) : KMInv N (k + 1) (kmStep s e) := by
  have h1 : KMInv N k (if e.duration ≠ s.currentTime ∧ 0 < s.deaths then kmMultiply s else s) := by
    split
    · next hcond => exact kmMultiply_inv N k s h hcond.2 (by omega)
    · exact h
  unfold kmStep
  generalize hS : (if e.duration ≠ s.currentTime ∧ 0 < s.deaths then kmMultiply s else s) = S
  rw [hS] at h1
  obtain ⟨hd, hc, har, hdc, hsv, hhead, hpw, hub, hsteps⟩ := h1
  unfold KMInv
  split
  all_goals
    dsimp only
    exact ⟨by omega, by omega, by omega, by omega, hsv, hhead, hpw, hub, hsteps⟩

/-- Helper: the loop preserves the invariant over any event list that fits
in the population count. -/
theorem kmFold_inv (N : ℤ) (l : List SurvivalEvent) :
    ∀ (s : KMState) (k : ℤ), KMInv N k s → k + l.length ≤ N →
      KMInv N (k + l.length) (l.foldl kmStep s) := by
  induction l with
  | nil =>
    intro s k h _
    simpa using h
  | cons e rest ih =>
    intro s k h hk
    simp only [List.length_cons] at hk
    have h1 := kmStep_inv N k s e h (by omega)
    have h2 := ih (kmStep s e) (k + 1) h1 (by omega)
    have heq : k + 1 + (rest.length : ℤ) = k + ((rest.length : ℤ) + 1) := by omega
    rw [heq] at h2
    simpa using h2

/-- Helper: the initial state satisfies the invariant at k = 0. -/
theorem kmInit_inv (events : List SurvivalEvent) :
    KMInv (events.length) 0 (kmInit events) := by
  unfold KMInv kmInit
  dsimp only
  refine ⟨le_refl 0, le_refl 0, by omega, by omega, by norm_num, rfl,
    List.pairwise_singleton _ _, ?_, by simp⟩
  intro p hp
  rw [List.mem_singleton.mp hp]

/-- Helper: the final time point handling keeps the curve and step
invariants when the group fits in at-risk. -/
theorem kmFinal_spec (s : KMState)
    (hc : 0 ≤ s.censored) (hle : s.deaths + s.censored ≤ s.atRisk)
    (hsv : 0 ≤ s.survival)
    (hhead : s.curve.head? = some ⟨0, 1⟩)
    (hpw : s.curve.Pairwise (fun p q => q.survival ≤ p.survival))
    (hub : ∀ p ∈ s.curve, s.survival ≤ p.survival)
    (hsteps : ∀ st ∈ s.steps, st.2 ≤ st.1 ∧ 0 < st.1) :
    (kmFinal s).curve.head? = some ⟨0, 1⟩ ∧
    (kmFinal s).curve.Pairwise (fun p q => q.survival ≤ p.survival) ∧
    (∀ st ∈ (kmFinal s).steps, st.2 ≤ st.1 ∧ 0 < st.1) := by
  unfold kmFinal
  split
  · next hd =>
    obtain ⟨hf0, hf1, hdar, har0⟩ := kmFactor_bounds s.atRisk s.deaths s.censored hd hc hle
    have hsvle : s.survival * (((s.atRisk - s.deaths : ℤ) : ℚ) / ((s.atRisk : ℤ) : ℚ))
        ≤ s.survival := mul_le_of_le_one_right hsv hf1
    obtain ⟨hh, hpw2, _⟩ := curve_append_inv s.curve
      ⟨s.currentTime, s.survival * (((s.atRisk - s.deaths : ℤ) : ℚ) / ((s.atRisk : ℤ) : ℚ))⟩
      hhead hpw (fun p hp => le_trans hsvle (hub p hp))
    dsimp only
    refine ⟨hh, hpw2, ?_⟩
    intro st hst
    rcases List.mem_append.mp hst with h | h
    · exact hsteps st h
    · rw [List.mem_singleton.mp h]
      exact ⟨hdar, har0⟩
  · exact ⟨hhead, hpw, hsteps⟩

/-- Helper: the curve and step invariants hold for the run on any input. -/
theorem kmRun_spec (events : List SurvivalEvent) :
    (kmRun events).curve.head? = some ⟨0, 1⟩ ∧
    (kmRun events).curve.Pairwise (fun p q => q.survival ≤ p.survival) ∧
    (∀ st ∈ (kmRun events).steps, st.2 ≤ st.1 ∧ 0 < st.1) := by
  have hlen : ((jsSortBy survComparator events).length : ℤ) = (events.length : ℤ) := by
    exact_mod_cast jsSortBy_length survComparator events
  have hinv := kmFold_inv (events.length) (jsSortBy survComparator events)
    (kmInit events) 0 (kmInit_inv events) (by omega)
  rw [show (0 : ℤ) + ((jsSortBy survComparator events).length : ℤ) = (events.length : ℤ)
    by omega] at hinv
  obtain ⟨hd, hc, har, hdc, hsv, hhead, hpw, hub, hsteps⟩ := hinv
  exact kmFinal_spec _ hc (by omega) hsv hhead hpw hub hsteps

/-- Helper: with a non-increasing pairwise relation along the curve, the
last point is below every point. -/
theorem pairwise_getLast_le (l : List KMPoint)
    (hpw : l.Pairwise (fun p q => q.survival ≤ p.survival)) :
    ∀ q, l.getLast? = some q → ∀ p ∈ l, q.survival ≤ p.survival := by
  induction l with
  | nil =>
    intro q hq
    simp at hq
  | cons a t ih =>
    intro q hq p hp
    cases t with
    | nil =>
      simp only [List.getLast?_singleton, Option.some.injEq] at hq
      rw [List.mem_singleton.mp hp, hq]
    | cons b t2 =>
      rw [List.getLast?_cons_cons] at hq
      rcases List.mem_cons.mp hp with h | h
      · have hqmem : q ∈ b :: t2 := List.mem_of_getLast?_eq_some hq
        have := (List.pairwise_cons.mp hpw).1 q hqmem
        rw [h]
        exact this
      · exact ih (List.pairwise_cons.mp hpw).2 q hq p h

/-- Claim C2: for every event list, the curve kaplanMeier returns starts at
the point (0, 1), its survival values are non-increasing along the curve
(and hence as the time coordinate increases), and the final value is below
the value at every earlier point. -/
theorem kaplanMeier_curve_spec (events : List SurvivalEvent) :
    (kaplanMeier events).head? = some ⟨0, 1⟩ ∧
    (kaplanMeier events).Pairwise (fun p q => q.survival ≤ p.survival) ∧
    (∀ q, (kaplanMeier events).getLast? = some q →
      ∀ p ∈ kaplanMeier events, q.survival ≤ p.survival) := by
  obtain ⟨h1, h2, _⟩ := kmRun_spec events
  exact ⟨h1, h2, pairwise_getLast_le _ h2⟩

/-- Claim C4: at every multiplicative step of kaplanMeier, on any input
whatsoever, the recorded deaths count is at most the at-risk denominator
and the denominator is positive, so no step divides by zero; at-risk never
needs an explicit cap because it is initialised from the length of the very
list whose events it covers. -/
theorem kaplanMeier_steps_spec (events : List SurvivalEvent) :
    ∀ st ∈ kaplanMeierSteps events, st.2 ≤ st.1 ∧ 0 < st.1 :=
  (kmRun_spec events).2.2

/-- Witness for claim C4: a single death event gives the single
multiplicative step (at-risk 1, deaths 1), with positive denominator. -/
theorem kaplanMeier_steps_spec_witness :
    ((1 : ℤ), (1 : ℤ)).2 ≤ ((1 : ℤ), (1 : ℤ)).1 ∧ (0 : ℤ) < ((1 : ℤ), (1 : ℤ)).1 :=
  kaplanMeier_steps_spec [⟨1, 1, "Poc"⟩] (1, 1) (by decide)

/-- Claim C3, code bug witness: kaplanMeier sorts its input array in place,
so after the call the CALLER-OWNED list [duration 2, duration 1] has become
[duration 1, duration 2]: same elements, different order, where the spec
promises the query functions mutate nothing. -/
theorem kaplanMeier_mutates_input :
    kaplanMeierInputAfter [⟨2, 1, "Poc"⟩, ⟨1, 0, "Por"⟩]
        = [⟨1, 0, "Por"⟩, ⟨2, 1, "Poc"⟩] ∧
    kaplanMeierInputAfter [⟨2, 1, "Poc"⟩, ⟨1, 0, "Por"⟩]
        ≠ [⟨2, 1, "Poc"⟩, ⟨1, 0, "Por"⟩] := by
  constructor
  · decide
  · decide

/-- Counterexample for claim C9 as stated: through enrichCoral, a colony
alive in 2013 and 2016 with no observed death has lifespan 2 (the count of
alive observations), not 2016 - 2013 = 3 as the right-censored formula of
the claim requires. -/
theorem enrichCoral_lifespan_counterexample :
    (enrichCoral c9cex).death_year = none ∧
    (enrichCoral c9cex).recruitment_year = some 2013 ∧
    ((enrichCoral c9cex).observations.getLast?).map (fun o => o.year) = some 2016 ∧
    (enrichCoral c9cex).lifespan = 2 ∧ (2 : ℤ) ≠ 2016 - 2013 :=
  ⟨by rfl, by rfl, by rfl, by rfl, by omega⟩

/-- Claim C10 (amended): the Reset All Filters action restores the genus
set to all four canonical genera, the transect set to both transects, the
year range to the full default (2013, 2023) and the size bounds to the
defaults 0 and 10000, on every state; it leaves the current year and the
whole UI slice, in particular the colony selection, untouched. -/
theorem resetAllFilters_spec (s : AppState) :
    (resetAllFilters s).filters.selectedGenera
        = [Genus.Poc, Genus.Por, Genus.Acr, Genus.Mil] ∧
    (resetAllFilters s).filters.selectedTransects = [Transect.T01, Transect.T02] ∧
    (resetAllFilters s).filters.yearRange = (2013, 2023) ∧
    (resetAllFilters s).filters.minSize = 0 ∧
    (resetAllFilters s).filters.maxSize = 10000 ∧
    (resetAllFilters s).filters.currentYear = s.filters.currentYear ∧
    (resetAllFilters s).ui = s.ui :=
  ⟨rfl, rfl, rfl, rfl, rfl, rfl, rfl⟩

/-- Counterexample for claim C10 as stated: resetting the narrowed state
does restore the genus set and the year range, but the colony selection
[5] survives the reset, where the claim requires no selection. -/
theorem resetAllFilters_counterexample :
    narrowedState.filters.selectedGenera = [Genus.Poc] ∧
    narrowedState.filters.yearRange = (2015, 2018) ∧
    (resetAllFilters narrowedState).filters.selectedGenera
        = [Genus.Poc, Genus.Por, Genus.Acr, Genus.Mil] ∧
    (resetAllFilters narrowedState).filters.yearRange = (2013, 2023) ∧
    (resetAllFilters narrowedState).ui.selectedCoralIds = [5] ∧
    ([5] : List ℤ) ≠ [] :=
  ⟨rfl, rfl, rfl, rfl, rfl, by decide⟩

/-- Helper: a left fold by min is at most its initial value. -/
theorem foldl_min_le_init (xs : List ℝ) : ∀ a : ℝ, xs.foldl min a ≤ a := by
  induction xs with
  | nil => intro a; simp
  | cons x t ih =>
    intro a
    simp only [List.foldl_cons]
    exact le_trans (ih (min a x)) (min_le_left a x)

/-- Helper: a left fold by min is at most every list element. -/
theorem foldl_min_le_mem (xs : List ℝ) : ∀ (a v : ℝ), v ∈ xs → xs.foldl min a ≤ v := by
  induction xs with
  | nil =>
    intro a v hv
    simp at hv
  | cons x t ih =>
    intro a v hv
    simp only [List.foldl_cons]
    rcases List.mem_cons.mp hv with h | h
    · subst h
      exact le_trans (foldl_min_le_init t (min a v)) (min_le_right a v)
    · exact ih (min a x) v h

/-- Helper: a left fold by min returns the initial value or a member. -/
theorem foldl_min_mem (xs : List ℝ) : ∀ a : ℝ, xs.foldl min a = a ∨ xs.foldl min a ∈ xs := by
  induction xs with
  | nil => intro a; left; rfl
  | cons x t ih =>
    intro a
    simp only [List.foldl_cons]
    rcases ih (min a x) with h | h
    · rw [h]
      rcases le_total a x with hle | hle
      · left; exact min_eq_left hle
      · right; rw [min_eq_right hle]; exact List.mem_cons_self x t
    · right; exact List.mem_cons_of_mem x h

/-- Helper: a left fold by max is at least its initial value. -/
theorem init_le_foldl_max (xs : List ℝ) : ∀ a : ℝ, a ≤ xs.foldl max a := by
  induction xs with
  | nil => intro a; simp
  | cons x t ih =>
    intro a
    simp only [List.foldl_cons]
    exact le_trans (le_max_left a x) (ih (max a x))

/-- Helper: a left fold by max is at least every list element. -/
theorem mem_le_foldl_max (xs : List ℝ) : ∀ (a v : ℝ), v ∈ xs → v ≤ xs.foldl max a := by
  induction xs with
  | nil =>
    intro a v hv
    simp at hv
  | cons x t ih =>
    intro a v hv
    simp only [List.foldl_cons]
    rcases List.mem_cons.mp hv with h | h
    · subst h
      exact le_trans (le_max_right a v) (init_le_foldl_max t (max a v))
    · exact ih (max a x) v h

/-- Helper: a left fold by max returns the initial value or a member. -/
theorem foldl_max_mem (xs : List ℝ) : ∀ a : ℝ, xs.foldl max a = a ∨ xs.foldl max a ∈ xs := by
  induction xs with
  | nil => intro a; left; rfl
  | cons x t ih =>
    intro a
    simp only [List.foldl_cons]
    rcases ih (max a x) with h | h
    · rw [h]
      rcases le_total a x with hle | hle
      · right; rw [max_eq_right hle]; exact List.mem_cons_self x t
      · left; exact max_eq_left hle
    · right; exact List.mem_cons_of_mem x h

/-- Helper: the minimum of a list bounds every member from below. -/
theorem listMin_le (l : List ℝ) (v : ℝ) (hv : v ∈ l) : listMin l ≤ v := by
  cases l with
  | nil => simp at hv
  | cons x xs =>
    unfold listMin
    rcases List.mem_cons.mp hv with h | h
    · subst h; exact foldl_min_le_init xs v
    · exact foldl_min_le_mem xs x v h

/-- Helper: the minimum of a nonempty list is a member. -/
theorem listMin_mem (l : List ℝ) (h : l ≠ []) : listMin l ∈ l := by
  cases l with
  | nil => exact absurd rfl h
  | cons x xs =>
    simp only [listMin]
    rcases foldl_min_mem xs x with h1 | h1
    · rw [h1]; exact List.mem_cons_self x xs
    · exact List.mem_cons_of_mem x h1

/-- Helper: the maximum of a list bounds every member from above. -/
theorem le_listMax (l : List ℝ) (v : ℝ) (hv : v ∈ l) : v ≤ listMax l := by
  cases l with
  | nil => simp at hv
  | cons x xs =>
    unfold listMax
    rcases List.mem_cons.mp hv with h | h
    · subst h; exact init_le_foldl_max xs v
    · exact mem_le_foldl_max xs x v h

/-- Helper: the maximum of a nonempty list is a member. -/
theorem listMax_mem (l : List ℝ) (h : l ≠ []) : listMax l ∈ l := by
  cases l with
  | nil => exact absurd rfl h
  | cons x xs =>
    simp only [listMax]
    rcases foldl_max_mem xs x with h1 | h1
    · rw [h1]; exact List.mem_cons_self x xs
    · exact List.mem_cons_of_mem x h1

/-- Helper: the first bin edge is the minimum when it is positive. -/
theorem binEdge_zero (mn mx : ℝ) (n : ℕ) (h : 0 < mn) : binEdge mn mx n 0 = mn := by
  unfold binEdge
  rw [Nat.cast_zero, zero_mul, add_zero]
  exact Real.rpow_logb (by norm_num) (by norm_num) h

/-- Helper: the last bin edge is the maximum when it is positive and the
bin count is non-zero. -/
theorem binEdge_last (mn mx : ℝ) (n : ℕ) (h : 0 < mx) (hn : n ≠ 0) :
    binEdge mn mx n n = mx := by
  unfold binEdge
  have hne : (n : ℝ) ≠ 0 := Nat.cast_ne_zero.mpr hn
  rw [show Real.logb 10 mn + (n : ℝ) * ((Real.logb 10 mx - Real.logb 10 mn) / (n : ℝ))
      = Real.logb 10 mx from by field_simp]
  exact Real.rpow_logb (by norm_num) (by norm_num) h

/-- Helper: consecutive bin edges are non-decreasing for a positive minimum
below the maximum. -/
theorem binEdge_mono (mn mx : ℝ) (n : ℕ) (hmn : 0 < mn) (hmnmx : mn ≤ mx) (i : ℕ) :
    binEdge mn mx n i ≤ binEdge mn mx n (i + 1) := by
  unfold binEdge
  apply (Real.rpow_le_rpow_left_iff (by norm_num : (1 : ℝ) < 10)).mpr
  have hlog : Real.logb 10 mn ≤ Real.logb 10 mx :=
    Real.logb_le_logb_of_le (by norm_num) hmn hmnmx
  have hstep : 0 ≤ (Real.logb 10 mx - Real.logb 10 mn) / (n : ℝ) :=
    div_nonneg (by linarith) (Nat.cast_nonneg n)
  have hca : ((i + 1 : ℕ) : ℝ) = (i : ℝ) + 1 := by push_cast; ring
  rw [hca]
  nlinarith [hstep]

/-- Helper: consecutive bin edges are strictly increasing when the minimum
is positive and strictly below the maximum. -/
theorem binEdge_strictMono (mn mx : ℝ) (n : ℕ) (hmn : 0 < mn) (hmnmx : mn < mx)
    (hn : n ≠ 0) (i : ℕ) : binEdge mn mx n i < binEdge mn mx n (i + 1) := by
  unfold binEdge
  apply (Real.rpow_lt_rpow_left_iff (by norm_num : (1 : ℝ) < 10)).mpr
  have hlog : Real.logb 10 mn < Real.logb 10 mx :=
    Real.logb_lt_logb (by norm_num) hmn hmnmx
  have hnr : (0 : ℝ) < (n : ℝ) := by
    exact_mod_cast Nat.pos_of_ne_zero hn
  have hstep : 0 < (Real.logb 10 mx - Real.logb 10 mn) / (n : ℝ) :=
    div_pos (by linarith) hnr
  have hca : ((i + 1 : ℕ) : ℝ) = (i : ℝ) + 1 := by push_cast; ring
  rw [hca]
  nlinarith [hstep]

/-- Helper: a sum of pointwise sums of naturals splits. -/
theorem sum_map_add_nat {α : Type _} (l : List α) (f g : α → ℕ) :
    (l.map (fun x => f x + g x)).sum = (l.map f).sum + (l.map g).sum := by
  induction l with
  | nil => rfl
  | cons x t ih =>
    simp only [List.map_cons, List.sum_cons, ih]
    omega

/-- Helper: summing the indicator of a half-open interval over a list
counts the members of the interval. -/
theorem sum_map_ite_count (l : List ℝ) (a b : ℝ) :
    (l.map (fun v => if a ≤ v ∧ v < b then 1 else 0)).sum
      = (l.filter (fun v => decide (a ≤ v) && decide (v < b))).length := by
  induction l with
  | nil => rfl
  | cons x t ih =>
    simp only [List.map_cons, List.sum_cons, List.filter_cons]
    by_cases h1 : a ≤ x
    · by_cases h2 : x < b
      · simp [h1, h2, ih]
        omega
      · simp [h1, h2, ih]
    · simp [h1, ih]

/-- Helper: indicators of consecutive half-open intervals with
non-decreasing endpoints telescope to the indicator of the whole
interval. -/
theorem sum_ite_telescope (e : ℕ → ℝ) (he : ∀ i, e i ≤ e (i + 1)) (v : ℝ) (n : ℕ) :
    (((List.range n).map (fun i => if e i ≤ v ∧ v < e (i + 1) then 1 else 0)).sum : ℕ)
      = if e 0 ≤ v ∧ v < e n then 1 else 0 := by
  have hmono : Monotone e := monotone_nat_of_le_succ he
  induction n with
  | zero =>
    simp only [List.range_zero, List.map_nil, List.sum_nil]
    symm
    rw [if_neg]
    rintro ⟨h1, h2⟩
    exact absurd (lt_of_le_of_lt h1 h2) (lt_irrefl _)
  | succ n ih =>
    rw [List.range_succ, List.map_append, List.sum_append]
    simp only [List.map_cons, List.map_nil, List.sum_cons, List.sum_nil, add_zero]
    rw [ih]
    by_cases h0 : e 0 ≤ v
    · by_cases hv : v < e n
      · have hlt : v < e (n + 1) := lt_of_lt_of_le hv (he n)
        have h2 : ¬(e n ≤ v) := not_le.mpr hv
        simp [h0, hv, hlt, h2]
      · have hge : e n ≤ v := not_lt.mp hv
        by_cases hlt : v < e (n + 1)
        · simp [h0, hv, hge, hlt]
        · simp [h0, hv, hge, hlt]
    · have h2 : ¬(e n ≤ v) := fun hge => h0 (le_trans (hmono (Nat.zero_le n)) hge)
      simp [h0, h2]

/-- Helper: the total of the per-bin counts, as a double sum with the value
loop outside. -/
theorem sum_bin_counts (e : ℕ → ℝ) (n : ℕ) (values : List ℝ) :
    ((List.range n).map (fun i =>
        (values.filter (fun v => decide (e i ≤ v) && decide (v < e (i + 1)))).length)).sum
      = (values.map (fun v =>
          ((List.range n).map (fun i => if e i ≤ v ∧ v < e (i + 1) then 1 else 0)).sum)).sum := by
  induction values with
  | nil =>
    simp only [List.filter_nil, List.length_nil, List.map_nil, List.sum_nil]
    apply List.sum_eq_zero
    intro x hx
    rcases List.mem_map.mp hx with ⟨i, _, rfl⟩
    rfl
  | cons v vs ih =>
    have hsplit : ((List.range n).map (fun i =>
        ((v :: vs).filter (fun w => decide (e i ≤ w) && decide (w < e (i + 1)))).length))
        = (List.range n).map (fun i =>
            (if e i ≤ v ∧ v < e (i + 1) then 1 else 0)
              + (vs.filter (fun w => decide (e i ≤ w) && decide (w < e (i + 1)))).length) := by
      apply List.map_congr_left
      intro i _
      rw [List.filter_cons]
      by_cases h1 : e i ≤ v
      · by_cases h2 : v < e (i + 1)
        · simp [h1, h2]
          omega
        · simp [h1, h2]
      · simp [h1]
    rw [hsplit, sum_map_add_nat, ih]
    simp only [List.map_cons, List.sum_cons]

/-- Helper: on a nonempty input, computeSizeBins is the map of the binEdge
bins over the bin indices. -/
theorem computeSizeBins_eq_binEdge (values : List ℝ) (n : ℕ) (hne : values ≠ []) :
    computeSizeBins values n = (List.range n).map (fun i =>
      { x0 := binEdge (listMin values) (listMax values) n i,
        x1 := binEdge (listMin values) (listMax values) n (i + 1),
        count := (values.filter (fun v =>
          decide (binEdge (listMin values) (listMax values) n i ≤ v)
            && decide (v < binEdge (listMin values) (listMax values) n (i + 1)))).length
        : SizeBin }) := by
  unfold computeSizeBins
  rw [if_neg hne]
  apply List.map_congr_left
  intro i _
  dsimp only
  unfold binEdge
  have hca : ((i : ℝ) + 1) = ((i + 1 : ℕ) : ℝ) := by push_cast; ring
  rw [hca]

/-- Claim C1 (amended): computeSizeBins returns the empty list on the empty
input; on a nonempty list of STRICTLY POSITIVE values and a bin count
n >= 1 it returns exactly n bins, with non-decreasing shared edges
(strictly increasing when the minimum is below the maximum), and the per-bin
counts sum to the number of values in the half-open interval [min, max) —
values equal to the maximum are counted by NO bin, and the function itself
never filters out non-positive values. -/
theorem computeSizeBins_spec (values : List ℝ) (n : ℕ) (hn : 1 ≤ n)
    (hpos : ∀ v ∈ values, 0 < v) :
    computeSizeBins [] n = [] ∧
    (values ≠ [] →
      (computeSizeBins values n).length = n ∧
      (∀ b ∈ computeSizeBins values n, b.x0 ≤ b.x1) ∧
      (∀ i b b', (computeSizeBins values n)[i]? = some b →
        (computeSizeBins values n)[i + 1]? = some b' → b.x1 = b'.x0) ∧
      (listMin values < listMax values → ∀ b ∈ computeSizeBins values n, b.x0 < b.x1) ∧
      ((computeSizeBins values n).map SizeBin.count).sum
        = (values.filter (fun v =>
            decide (listMin values ≤ v) && decide (v < listMax values))).length) := by
  constructor
  · simp [computeSizeBins]
  intro hne
  have hn0 : n ≠ 0 := by omega
  have hmn : 0 < listMin values := hpos _ (listMin_mem values hne)
  have hmx : 0 < listMax values := hpos _ (listMax_mem values hne)
  have hmnmx : listMin values ≤ listMax values :=
    le_listMax values _ (listMin_mem values hne)
  have hbins := computeSizeBins_eq_binEdge values n hne
  refine ⟨?_, ?_, ?_, ?_, ?_⟩
  · rw [hbins]
    simp
  · rw [hbins]
    intro b hb
    obtain ⟨i, _, rfl⟩ := List.mem_map.mp hb
    exact binEdge_mono _ _ n hmn hmnmx i
  · rw [hbins]
    intro i b b' h1 h2
    rw [List.getElem?_map] at h1 h2
    by_cases hi : i + 1 < n
    · rw [List.getElem?_range (by omega : i < n)] at h1
      rw [List.getElem?_range hi] at h2
      simp only [Option.map_some', Option.some.injEq] at h1 h2
      rw [← h1, ← h2]
    · rw [List.getElem?_eq_none (by simpa using (by omega : n ≤ i + 1))] at h2
      simp at h2
  · rw [hbins]
    intro hlt b hb
    obtain ⟨i, _, rfl⟩ := List.mem_map.mp hb
    exact binEdge_strictMono _ _ n hmn hlt hn0 i
  · rw [hbins, List.map_map]
    have hcomp : (SizeBin.count ∘ fun i =>
        { x0 := binEdge (listMin values) (listMax values) n i,
          x1 := binEdge (listMin values) (listMax values) n (i + 1),
          count := (values.filter (fun v =>
            decide (binEdge (listMin values) (listMax values) n i ≤ v)
              && decide (v < binEdge (listMin values) (listMax values) n (i + 1)))).length
          : SizeBin })
        = fun i => (values.filter (fun v =>
            decide (binEdge (listMin values) (listMax values) n i ≤ v)
              && decide (v < binEdge (listMin values) (listMax values) n (i + 1)))).length :=
      rfl
    rw [hcomp, sum_bin_counts (binEdge (listMin values) (listMax values) n) n values]
    rw [List.map_congr_left (fun v _ =>
      sum_ite_telescope (binEdge (listMin values) (listMax values) n)
        (binEdge_mono _ _ n hmn hmnmx) v n)]
    rw [sum_map_ite_count values (binEdge (listMin values) (listMax values) n 0)
      (binEdge (listMin values) (listMax values) n n)]
    rw [binEdge_zero _ _ _ hmn, binEdge_last _ _ _ hmx hn0]

/-- Witness for claim C1 at values [1, 10] with one bin: the guard
hypotheses hold and the function returns exactly one bin. -/
theorem computeSizeBins_spec_witness :
    (1 ≤ 1 ∧ (∀ v ∈ ([1, 10] : List ℝ), 0 < v) ∧ ([1, 10] : List ℝ) ≠ []) ∧
    (computeSizeBins [1, 10] 1).length = 1 :=
  ⟨⟨le_refl 1, by norm_num, by simp⟩,
   ((computeSizeBins_spec [1, 10] 1 (le_refl 1) (by norm_num)).2 (by simp)).1⟩

/-- Counterexample for claim C1 as stated: on the strictly positive input
[1, 10] with one bin, the bin counts sum to 1 (the maximum falls outside
the half-open final bin), not to 2, the number of strictly positive
values. -/
theorem computeSizeBins_count_counterexample :
    ¬(((computeSizeBins [1, 10] 1).map SizeBin.count).sum
      = (([1, 10] : List ℝ).filter (fun v => decide (0 < v))).length) := by
  have hmn : listMin [1, 10] = (1 : ℝ) := by norm_num [listMin]
  have hmx : listMax [1, 10] = (10 : ℝ) := by norm_num [listMax]
  have he0 : binEdge 1 10 1 0 = (1 : ℝ) := binEdge_zero 1 10 1 (by norm_num)
  have he1 : binEdge 1 10 1 1 = (10 : ℝ) := binEdge_last 1 10 1 (by norm_num) (by norm_num)
  rw [computeSizeBins_eq_binEdge [1, 10] 1 (by simp), hmn, hmx]
  rw [show List.range 1 = [0] from rfl]
  simp only [List.map_cons, List.map_nil, List.sum_cons, List.sum_nil, add_zero]
  rw [show (0 : ℕ) + 1 = 1 from rfl, he0, he1]
  have hcount : (([1, 10] : List ℝ).filter
      (fun v => decide ((1 : ℝ) ≤ v) && decide (v < (10 : ℝ)))).length = 1 := by
    norm_num [List.filter_cons, List.filter_nil]
  have hposcount : (([1, 10] : List ℝ).filter (fun v => decide (0 < v))).length = 2 := by
    norm_num [List.filter_cons, List.filter_nil]
  rw [hcount, hposcount]
  omega

end CoralViz
